import Mathlib

/-!
# Verification of the hakilens crawl-and-extract pipeline

A shallow embedding of the core of the `hakilens` scraper:

* the retrying HTTP fetch layer (`src/hakilens_scraper/http_utils.py`),
* the listing-page classifier (`src/hakilens_scraper/parsers/kenyalaw.py`),
* the Akoma-Ntoso plain-text extractor (`src/hakilens_scraper/akn.py`),
* the listing crawl loop and the case-detail scrape with its upsert,
  XML-enrichment and PDF-fallback policy (`src/scraper.py`),
* the relevant part of the relational model (`src/db.py`).

Pure Python functions are translated into Lean functions; effectful parts
(network, filesystem, the PDF reader, `urljoin`) appear as explicit oracle
inputs describing each call's outcome, and the database is explicit state.
Python truthiness of optional strings and of optional integers is modelled
explicitly where the source relies on it.
-/

namespace Hakilens

/-! ## Python primitives

Helpers mirroring Python string/option idioms used by the source:
`pat in s`, `s.split(marker, 1)[0]`, truthiness of `Optional[str]`,
and `len(x or "")`. -/

/-- `pat` occurs as a contiguous sublist of `s` (Python `pat in s` on strings). -/
def subListOccurs (pat : List Char) : List Char → Bool
  | [] => pat.isEmpty
  | c :: rest => pat.isPrefixOf (c :: rest) || subListOccurs pat rest

/-- Python `pat in s` for strings. -/
def containsSub (s pat : String) : Bool :=
  subListOccurs pat.data s.data

/-- Characters of `s` before the first occurrence of `marker` (all of `s` if absent). -/
def splitBeforeAux (marker : List Char) : List Char → List Char
  | [] => []
  | c :: rest => if marker.isPrefixOf (c :: rest) then [] else c :: splitBeforeAux marker rest

/-- Python `s.split(marker, 1)[0]`: the prefix of `s` before the first `marker`. -/
def splitFirstBefore (s marker : String) : String :=
  ⟨splitBeforeAux marker.data s.data⟩

/-- Python truthiness of an `Optional[str]`: `None` and `""` are falsy. -/
def pyOptStrTruthy : Option String → Bool
  | none => false
  | some s => !s.isEmpty

/-- Python `len(x or "")` for `x : Optional[str]`. -/
def optLen (o : Option String) : Nat :=
  (o.getD "").length

/-- Python `s.strip()`: remove leading and trailing whitespace. -/
def pyStrip (s : String) : String :=
  ⟨((s.data.dropWhile Char.isWhitespace).reverse.dropWhile Char.isWhitespace).reverse⟩

/-- Python `s.lower()` (ASCII case folding). -/
def pyLower (s : String) : String :=
  ⟨s.data.map Char.toLower⟩

/-- Python `s.endswith(post)`. -/
def pyEndsWith (s post : String) : Bool :=
  post.data.isSuffixOf s.data

/-! ## Listing crawl (`crawl_listing`, `src/scraper.py` lines 155-176)

The network is abstracted by supplying, as a list, the sequence of listing
pages the `next` chain produces: element `i` is the fetch result of the
`i`-th page the loop would request.  Per extracted detail link we record the
outcome of `scrape_case_detail` (`none` = it raised and the `except` clause
swallowed the failure, `some id` = the returned case id). -/

/-- One fetched listing page: per-link `scrape_case_detail` outcomes and
whether `extract_listing_links` returned a next-page link. -/
structure ListingPage where
  scrapeResults : List (Option Nat)
  next_link : Bool
deriving DecidableEq

/-- Python `max_pages and page_count >= max_pages`:
`None` and `0` are falsy, so they never terminate the loop. -/
def pageCapReached (max_pages : Option Nat) (page_count : Nat) : Bool :=
  match max_pages with
  | none => false
  | some m => decide (m ≠ 0) && decide (m ≤ page_count)

/-- The `while current_url:` loop of `crawl_listing`, by recursion on the
remaining chain of pages.  Returns the accumulated ids and the number of
pages fetched. -/
def crawl_listing_go : List ListingPage → Option Nat → Nat → List Nat → List Nat × Nat
  | [], _, page_count, ids => (ids, page_count)
  | page :: rest, max_pages, page_count, ids =>
    let ids := ids ++ page.scrapeResults.filterMap id
    let page_count := page_count + 1
    if pageCapReached max_pages page_count then (ids, page_count)
    else if page.next_link then crawl_listing_go rest max_pages page_count ids
    else (ids, page_count)

/-- `crawl_listing(start_url, max_pages)`: ids collected and pages fetched. -/
def crawl_listing (pages : List ListingPage) (max_pages : Option Nat) : List Nat × Nat :=
  crawl_listing_go pages max_pages 0 []

/-- Number of pages an uncapped crawl visits: it follows the chain until the
first page without a `next` link (or until the supplied chain is exhausted). -/
def chainLength : List ListingPage → Nat
  | [] => 0
  | page :: rest => if page.next_link then chainLength rest + 1 else 1

/-! ## Rate-limited fetcher (`HttpClient`, `src/hakilens_scraper/http_utils.py`)

`HttpClient.get`/`HttpClient.download` wrap one `requests` call in
`@retry(stop=stop_after_attempt(3), wait=wait_exponential_jitter(initial=1, max=10))`.
The network is an oracle `dispatch : Nat → Except String RawResponse` giving
the outcome of the `n`-th dispatched request (1-based): `.error msg` models a
`requests` exception (connection error, timeout, ...), `.ok` a received
response.  `resp.raise_for_status()` turns a status of 400 or above into an
error as well.  On exhausting the attempts tenacity raises `RetryError`
wrapping the last attempt's error — the failure the spec names `FetchError`. -/

/-- The raw outcome `requests.Session.get` delivers when no exception occurs. -/
structure RawResponse where
  url : String
  status_code : Nat
  text : String
  content : String
  content_type : Option String
deriving DecidableEq

/-- A single attempt's failure: a transport exception or a non-2xx status
raised by `resp.raise_for_status()`. -/
inductive RequestError where
  | exception (msg : String)
  | http_status (code : Nat)
deriving DecidableEq

/-- tenacity's `RetryError`, carrying the last attempt's failure; this is the
exception the spec's error taxonomy calls `FetchError`. -/
structure RetryError where
  last_attempt : RequestError
deriving DecidableEq

/-- The normalized response `HttpClient.get` builds from a successful fetch. -/
structure HttpResponse where
  url : String
  status_code : Nat
  text : String
  content : String
  content_type : Option String
deriving DecidableEq

/-- Body of `HttpClient.get` without the retry decorator: one `session.get`
plus `raise_for_status` (`requests` raises `HTTPError` for status ≥ 400). -/
def attempt_get (dispatch : Nat → Except String RawResponse) (n : Nat) :
    Except RequestError HttpResponse :=
  match dispatch n with
  | .error msg => .error (.exception msg)
  | .ok resp =>
    if 400 ≤ resp.status_code then .error (.http_status resp.status_code)
    else .ok { url := resp.url, status_code := resp.status_code, text := resp.text,
               content := resp.content, content_type := resp.content_type }

/-- Body of `HttpClient.download` without the retry decorator: identical to
`attempt_get` except that the body is kept as raw bytes and `text` is `""`. -/
def attempt_download (dispatch : Nat → Except String RawResponse) (n : Nat) :
    Except RequestError HttpResponse :=
  match dispatch n with
  | .error msg => .error (.exception msg)
  | .ok resp =>
    if 400 ≤ resp.status_code then .error (.http_status resp.status_code)
    else .ok { url := resp.url, status_code := resp.status_code, text := "",
               content := resp.content, content_type := resp.content_type }

/-- tenacity `stop_after_attempt(max_attempts)`: stop once the attempt that
just failed was the `max_attempts`-th. -/
def stop_after_attempt (max_attempts attempt_number : Nat) : Bool :=
  max_attempts ≤ attempt_number

/-- tenacity's retry loop: run attempt `n`; on failure either re-raise as
`RetryError` when the stop condition holds, or retry.  `fuel` bounds the
recursion; with `fuel ≥ max_attempts` it never runs out before the stop
condition fires.  Returns the result together with the number of the last
attempt made. -/
def retry_loop (attempt : Nat → Except RequestError HttpResponse) (max_attempts : Nat) :
    Nat → Nat → Except RetryError HttpResponse × Nat
  | n, fuel =>
    match attempt n with
    | .ok resp => (.ok resp, n)
    | .error e =>
      if stop_after_attempt max_attempts n then (.error ⟨e⟩, n)
      else
        match fuel with
        | 0 => (.error ⟨e⟩, n)
        | fuel + 1 => retry_loop attempt max_attempts (n + 1) fuel

/-- `HttpClient.get`: the retry decorator applied to `attempt_get` with
`stop_after_attempt(3)`. -/
def http_get (dispatch : Nat → Except String RawResponse) :
    Except RetryError HttpResponse × Nat :=
  retry_loop (attempt_get dispatch) 3 1 3

/-- `HttpClient.download`: the retry decorator applied to `attempt_download`
with `stop_after_attempt(3)`. -/
def http_download (dispatch : Nat → Except String RawResponse) :
    Except RetryError HttpResponse × Nat :=
  retry_loop (attempt_download dispatch) 3 1 3

/-- tenacity `wait_exponential_jitter(initial, max, exp_base, jitter)`:
the sleep before retrying after failed attempt number `attempt_number` is
`max 0 (min (initial * exp_base ^ (attempt_number - 1) + j) maxWait)` where
`j` is drawn uniformly from `[0, jitter]`.  The draw is passed in as `j`. -/
def wait_exponential_jitter (initial maxWait exp_base j : ℚ) (attempt_number : Nat) : ℚ :=
  max 0 (min (initial * exp_base ^ (attempt_number - 1) + j) maxWait)

/-- The `n`-th dispatched request fails: either `requests` raises, or the
response's status is 400 or above (so `raise_for_status` raises). -/
def attemptFails (dispatch : Nat → Except String RawResponse) (n : Nat) : Prop :=
  match dispatch n with
  | .error _ => True
  | .ok resp => 400 ≤ resp.status_code

/-- The error the `n`-th attempt produces when it fails. -/
def attemptError (dispatch : Nat → Except String RawResponse) (n : Nat) : RequestError :=
  match dispatch n with
  | .error msg => .exception msg
  | .ok resp => .http_status resp.status_code

/-! ## Listing-page classifier (`is_listing_page`,
`src/hakilens_scraper/parsers/kenyalaw.py` lines 24-32)

A parsed HTML page is abstracted to the list of its elements, each
carrying the attributes the two CSS selectors inspect: the tag name, the
`rel` attribute, and the class list.  `soup.select("a[rel='next']")` collects
`a` elements whose `rel` contains `next`; the second selector collects
elements having any of the five listing-container class names. -/

/-- One HTML element, restricted to what `is_listing_page`'s selectors read
(`rel` is the serialized attribute value, `none` when absent). -/
structure HtmlElement where
  tag : String
  rel : Option String
  classes : List String
deriving DecidableEq

/-- A parsed HTML document, as the list of its elements in document order. -/
structure HtmlDoc where
  elements : List HtmlElement
deriving DecidableEq

/-- `soup.select("a[rel='next']")`. -/
def selectNextAnchors (doc : HtmlDoc) : List HtmlElement :=
  doc.elements.filter (fun e => e.tag == "a" && e.rel == some "next")

/-- The class names of `soup.select(".result, .results, .list, .search-results, .card")`. -/
def listingContainerClasses : List String :=
  ["result", "results", "list", "search-results", "card"]

/-- `soup.select(".result, .results, .list, .search-results, .card")`. -/
def selectListingContainers (doc : HtmlDoc) : List HtmlElement :=
  doc.elements.filter (fun e => listingContainerClasses.any (fun c => e.classes.contains c))

/-- `is_listing_page(html)`: a `rel=next` anchor, else at least five
result/card/list containers, else not a listing. -/
def is_listing_page (doc : HtmlDoc) : Bool :=
  if !(selectNextAnchors doc).isEmpty then true
  else if 5 ≤ (selectListingContainers doc).length then true
  else false

/-! ## Structured-text extractor (`extract_plain_text_from_akn`,
`src/hakilens_scraper/akn.py`)

The function parses the bytes with a recovering parser (bytes that are not
XML at all fail there — outside this model, which starts from the parsed
tree) and then evaluates four XPath queries against the root.  An XML tree is
elements (with resolved namespace URI and local name) and text nodes.

`nsmap = {k if k else "akn": v for k, v in (root.nsmap or {}).items()}`
binds the prefix `akn` to the root's default-namespace declaration (or to an
explicit `xmlns:akn` declaration); `akn_ns` is that binding, `none` when the
root declares no such namespace.  lxml raises `XPathEvalError` when a query
uses an undefined prefix, modelled as `.error ()`. -/

/-- An XML node: an element with a namespace URI, a local name and children,
or a text node. -/
inductive XmlNode where
  | element (ns : Option String) (tag : String) (children : List XmlNode)
  | text (s : String)

/-- The parsed document: root node plus the nsmap's binding for prefix `akn`. -/
structure XmlDocument where
  root : XmlNode
  akn_ns : Option String

mutual

/-- All text nodes under a node (`.//text()`), in document order. -/
def descendantTexts : XmlNode → List String
  | .text s => [s]
  | .element _ _ children => descendantTextsList children

/-- `descendantTexts` over a list of nodes. -/
def descendantTextsList : List XmlNode → List String
  | [] => []
  | c :: cs => descendantTexts c ++ descendantTextsList cs

end

mutual

/-- Descendant-or-self elements of a node, in document order. -/
def descendantOrSelfElems : XmlNode → List XmlNode
  | .text _ => []
  | .element ns tag children => .element ns tag children :: descendantOrSelfElemsList children

/-- `descendantOrSelfElems` over a list of nodes. -/
def descendantOrSelfElemsList : List XmlNode → List XmlNode
  | [] => []
  | c :: cs => descendantOrSelfElems c ++ descendantOrSelfElemsList cs

end

/-- Does a node match an element name test `ns:tag` (`ns = none`: no
namespace)? -/
def isElemNamed (ns : Option String) (tag : String) : XmlNode → Bool
  | .element n t _ => n == ns && t == tag
  | .text _ => false

/-- Children of a node. -/
def childrenOf : XmlNode → List XmlNode
  | .element _ _ children => children
  | .text _ => []

/-- The four body-container queries of `body_candidates`, in source order. -/
inductive AknQuery where
  | descBodyAkn        -- "//akn:body"
  | descBodyPlain      -- "//body"
  | descJudgmentBody   -- "//akn:judgment/akn:body"
  | descActBody        -- "//akn:act/akn:body"
deriving DecidableEq

/-- `body_candidates` from the source, in order. -/
def body_candidates : List AknQuery :=
  [.descBodyAkn, .descBodyPlain, .descJudgmentBody, .descActBody]

/-- `root.xpath(q, namespaces=nsmap)` for one body-container query.  Queries
with the `akn` prefix raise (`.error ()`) when the nsmap binds no `akn`. -/
def evalBodyQuery (doc : XmlDocument) : AknQuery → Except Unit (List XmlNode)
  | .descBodyAkn =>
    match doc.akn_ns with
    | none => .error ()
    | some u => .ok ((descendantOrSelfElems doc.root).filter (isElemNamed (some u) "body"))
  | .descBodyPlain =>
    .ok ((descendantOrSelfElems doc.root).filter (isElemNamed none "body"))
  | .descJudgmentBody =>
    match doc.akn_ns with
    | none => .error ()
    | some u =>
      .ok ((((descendantOrSelfElems doc.root).filter (isElemNamed (some u) "judgment")).map
        (fun j => (childrenOf j).filter (isElemNamed (some u) "body"))).flatten)
  | .descActBody =>
    match doc.akn_ns with
    | none => .error ()
    | some u =>
      .ok ((((descendantOrSelfElems doc.root).filter (isElemNamed (some u) "act")).map
        (fun a => (childrenOf a).filter (isElemNamed (some u) "body"))).flatten)

/-- The inner collection loop: every text node under the matched containers,
stripped, keeping the non-empty values. -/
def trimmedNonEmptyTexts (nodes : List XmlNode) : List String :=
  ((descendantTextsList nodes).map pyStrip).filter (fun v => !v.isEmpty)

/-- The `for xpath in body_candidates` loop: skip queries with no matching
nodes, collect text under the matches, and stop at the first query whose
collected `text_parts` is non-empty. -/
def aknQueryLoop (doc : XmlDocument) : List AknQuery → Except Unit (List String)
  | [] => .ok []
  | q :: rest =>
    match evalBodyQuery doc q with
    | .error e => .error e
    | .ok nodes =>
      if nodes.isEmpty then aknQueryLoop doc rest
      else
        let text_parts := trimmedNonEmptyTexts nodes
        if text_parts.isEmpty then aknQueryLoop doc rest
        else .ok text_parts

/-- `extract_plain_text_from_akn(xml_bytes)`, from the parsed tree on. -/
def extract_plain_text_from_akn (doc : XmlDocument) : Except Unit String :=
  (aknQueryLoop doc body_candidates).map (String.intercalate "\n")

/-- The corrected specification of the extractor, stated in the amended
claim's words: with the `akn` prefix bound, the winning query is the first
one whose matches contain at least one non-empty stripped text node (a query
matching only text-less containers is skipped), and the result is its texts
newline-joined, the empty string when no query yields text; without an `akn`
binding the first query already raises. -/
def aknExtractSpec (doc : XmlDocument) : Except Unit String :=
  match doc.akn_ns with
  | none => .error ()
  | some _ =>
    .ok (String.intercalate "\n"
      (((body_candidates.map
          (fun q => trimmedNonEmptyTexts ((evalBodyQuery doc q).toOption.getD []))).find?
        (fun l => !l.isEmpty)).getD []))

/-! ## Relational model (`src/db.py`) and the detail scrape
(`scrape_case_detail`, `src/scraper.py` lines 24-152)

The database is explicit state: the `cases`, `documents` and `images` tables
as row lists plus the `cases` autoincrement counter.  `Case.url` carries a
unique constraint.  `parse_case_detail(resp.url, resp.text)` returns
`CaseParsed(url=url, ...)` with the remaining fields extracted from the HTML;
the extraction itself is pure markup analysis, so those fields are an input
(`CaseParsedFields`) while the `url` field is modelled exactly: it is the
`resp.url` argument.

Side-effecting collaborators appear as oracles in `ScrapeEnv`:
`urljoin` (from `urllib.parse`), and per-URL download outcomes for the XML
candidates, the PDFs and the images.  `race` models a concurrent scrape that
commits a `Case` row for the same URL between our `one_or_none` lookup and
our `flush`, making the flush raise `IntegrityError`. -/

/-- The metadata/text/links fields of `CaseParsed` other than `url`. -/
structure CaseParsedFields where
  title : Option String
  case_number : Option String
  court : Option String
  parties : Option String
  judges : Option String
  date : Option String
  citation : Option String
  content_text : Option String
  pdf_links : List String
  image_links : List String
deriving DecidableEq

/-- `CaseParsed`: parse output (fields plus the page URL). -/
structure CaseParsed extends CaseParsedFields where
  url : String
deriving DecidableEq

/-- A row of the `cases` table. -/
structure CaseRow where
  id : Nat
  url : String
  court : Option String
  case_number : Option String
  parties : Option String
  judges : Option String
  date : Option String
  citation : Option String
  title : Option String
  summary : Option String
  content_text : Option String
deriving DecidableEq

/-- A row of the `documents` table. -/
structure DocumentRow where
  case_id : Nat
  file_path : String
  url : String
  content_type : Option String
deriving DecidableEq

/-- A row of the `images` table. -/
structure ImageRow where
  case_id : Nat
  file_path : String
  url : String
deriving DecidableEq

/-- The database: the three tables and the `cases` id sequence. -/
structure Db where
  cases : List CaseRow
  documents : List DocumentRow
  images : List ImageRow
  next_case_id : Nat
deriving DecidableEq

/-- `session.query(Case).filter(Case.url == url).one_or_none()` (under the
unique-url invariant at most one row matches). -/
def findCase (db : Db) (url : String) : Option CaseRow :=
  db.cases.find? (fun c => c.url == url)

/-- Write back the mutated ORM `Case` object: replace the row with its
primary key. -/
def setCase (db : Db) (c : CaseRow) : Db :=
  { db with cases := db.cases.map (fun r => if r.id == c.id then c else r) }

/-- `Case(url=url)` inserted and flushed: a fresh row, all other columns
`NULL`, taking the next id from the sequence. -/
def newCaseRow (db : Db) (url : String) : Db × CaseRow :=
  let c : CaseRow :=
    { id := db.next_case_id
      url := url
      court := none
      case_number := none
      parties := none
      judges := none
      date := none
      citation := none
      title := none
      summary := none
      content_text := none }
  ({ db with cases := db.cases ++ [c], next_case_id := db.next_case_id + 1 }, c)

/-- Lines 33-50 of `scrape_case_detail`: look up the Case by URL; if absent,
insert and flush.  When a concurrent scrape committed the same URL first
(`race = some r`), the flush raises `IntegrityError`: our insert is rolled
back and the winning row — which consumed the id our insert would have
taken, with whatever field state the concurrent writer committed (`r`) — is
re-read with `.one()`. -/
def upsertCaseRow (db : Db) (url : String) (race : Option CaseRow) : Db × CaseRow :=
  match findCase db url with
  | some existing => (db, existing)
  | none =>
    match race with
    | some r =>
      let winner := { r with id := db.next_case_id, url := url }
      ({ db with cases := db.cases ++ [winner], next_case_id := db.next_case_id + 1 }, winner)
    | none => newCaseRow db url

/-- Lines 52-59: apply every parsed scalar field to the Case row. -/
def applyParsedFields (c : CaseRow) (parsed : CaseParsed) : CaseRow :=
  { c with
    title := parsed.title
    case_number := parsed.case_number
    court := parsed.court
    parties := parsed.parties
    judges := parsed.judges
    date := parsed.date
    citation := parsed.citation
    content_text := parsed.content_text }

/-- Outcome of `http_client.download(xml_url)` plus the subsequent processing
of one XML enrichment candidate, when the download itself did not raise. -/
structure XmlFetchOk where
  /-- Python `not xml_resp.content`: the body is empty/falsy. -/
  content_isEmpty : Bool
  /-- The `Content-Type` header. -/
  content_type : Option String
  /-- Result of `extract_plain_text_from_akn(xml_resp.content)`; `none` when
  `save_xml` or the extractor raised (both are swallowed per candidate). -/
  extract : Option String
deriving DecidableEq

/-- Outcome of downloading, saving and inserting one PDF, when none of those
steps raised. -/
structure PdfFetchOk where
  /-- Path returned by `save_pdf`. -/
  file_path : String
  /-- The `Content-Type` header, stored on the `Document` row. -/
  content_type : Option String
  /-- `PdfReader(path).pages`: per page, `page.extract_text()` (with `None`
  for pages where it returns `None`); the outer `none` when `PdfReader` or
  the page iteration raised. -/
  pages : Option (List (Option String))
deriving DecidableEq

/-- Outcome of downloading and saving one image, when nothing raised. -/
structure ImageFetchOk where
  /-- Path returned by `save_image`. -/
  file_path : String
deriving DecidableEq

/-- The effectful collaborators of `scrape_case_detail`, as oracles. -/
structure ScrapeEnv where
  /-- `urllib.parse.urljoin` (via `normalize_url`). -/
  urljoin : String → String → String
  /-- Per candidate URL, the XML download outcome (`none`: the download
  raised; swallowed per candidate). -/
  xmlDl : String → Option XmlFetchOk
  /-- Per absolute URL, the PDF download/save/insert outcome (`none`: some
  step raised; the `except` clause skips the link). -/
  pdfDl : String → Option PdfFetchOk
  /-- Per absolute URL, the image download/save/insert outcome. -/
  imgDl : String → Option ImageFetchOk
  /-- A concurrent scrape's Case row committed between our lookup and our
  flush (`none`: no race). -/
  race : Option CaseRow

/-- Lines 73-78: the candidate structured-XML URLs built from the part of
the page URL before the `/eng@` marker. -/
def xml_candidates (base : String) : List String :=
  [base ++ "/eng@/main.xml", base ++ "/eng@/main", base ++ "/eng@.xml",
   base ++ "/eng@/document.xml"]

/-- Lines 79-92: one iteration of the `for xml_url in candidates` loop.  A
candidate is skipped when its download raised, its body is empty, its content
type does not mention `xml` while the URL does not end in `.xml`, or
saving/extraction raised; otherwise its extracted text becomes the running
best when non-empty and strictly longer. -/
def aknGo (xmlDl : String → Option XmlFetchOk) (akn_text : Option String)
    (xml_url : String) : Option String :=
  match xmlDl xml_url with
  | none => akn_text
  | some r =>
    if r.content_isEmpty then akn_text
    else if !containsSub (pyLower (r.content_type.getD "")) "xml"
        && !pyEndsWith xml_url ".xml" then akn_text
    else
      match r.extract with
      | none => akn_text
      | some text_candidate =>
        if !text_candidate.isEmpty
            && (akn_text.getD "").length < text_candidate.length
        then some text_candidate else akn_text

/-- Lines 79-92: the whole candidate loop, starting from `akn_text = None`. -/
def aknCandidateFold (xmlDl : String → Option XmlFetchOk) (urls : List String) :
    Option String :=
  urls.foldl (aknGo xmlDl) none

/-- Lines 70-102: the XML enrichment step's effect on `content_text`.  Only
URLs containing `/eng@` are attempted; the collected best text overwrites
`parsed.content_text` exactly when it is non-empty and the current text is
falsy or strictly shorter. -/
def xmlEnrichText (xmlDl : String → Option XmlFetchOk) (parsed_url : String)
    (content_text : Option String) : Option String :=
  if containsSub parsed_url "/eng@" then
    match aknCandidateFold xmlDl (xml_candidates (splitFirstBefore parsed_url "/eng@")) with
    | some akn_text =>
      if !akn_text.isEmpty
          && (!pyOptStrTruthy content_text || (content_text.getD "").length < akn_text.length)
      then some akn_text else content_text
    | none => content_text
  else content_text

/-- Lines 117-125, for one saved PDF: join the first 20 pages' text (each
`page.extract_text() or ""`), strip, and use it only when non-empty
(`... .strip() or None`); `none` also when the reader raised. -/
def pdfPageText (r : PdfFetchOk) : Option String :=
  match r.pages with
  | none => none
  | some pages =>
    let text_parts := (pages.take 20).map (fun p => p.getD "")
    let t := pyStrip (String.intercalate "\n" text_parts)
    if t.isEmpty then none else some t

/-- Lines 104-127: one iteration of the `for link in parsed.pdf_links` loop.
Each successful download appends a `Document` row; the first PDF whose text
extraction (only attempted while `first_pdf_text` is `None` and `deep` holds)
yields non-empty text provides `first_pdf_text`. -/
def pdfGo (pdfDl : String → Option PdfFetchOk) (urljoin : String → String → String)
    (parsed_url : String) (case_id : Nat) (deep : Bool) (st : Db × Option String)
    (link : String) : Db × Option String :=
  let abs_url := urljoin parsed_url link
  match pdfDl abs_url with
  | none => st
  | some r =>
    let db' := { st.1 with
      documents := st.1.documents ++
        [{ case_id := case_id
           file_path := r.file_path
           url := abs_url
           content_type := r.content_type }] }
    if st.2.isNone && deep then
      match pdfPageText r with
      | none => (db', st.2)
      | some t => (db', some t)
    else (db', st.2)

/-- Lines 104-127: the whole PDF loop, starting with `first_pdf_text = None`. -/
def pdfStep (pdfDl : String → Option PdfFetchOk) (urljoin : String → String → String)
    (parsed_url : String) (case_id : Nat) (deep : Bool) (links : List String)
    (db : Db) : Db × Option String :=
  links.foldl (pdfGo pdfDl urljoin parsed_url case_id deep) (db, none)

/-- Lines 129-142: one iteration of the image loop; each successful download
appends an `Image` row, failures are skipped. -/
def imageGo (imgDl : String → Option ImageFetchOk) (urljoin : String → String → String)
    (parsed_url : String) (case_id : Nat) (db : Db) (link : String) : Db :=
  let abs_url := urljoin parsed_url link
  match imgDl abs_url with
  | none => db
  | some r =>
    { db with
      images := db.images ++
        [{ case_id := case_id
           file_path := r.file_path
           url := abs_url }] }

/-- Lines 129-142: the whole image loop. -/
def imageStep (imgDl : String → Option ImageFetchOk) (urljoin : String → String → String)
    (parsed_url : String) (case_id : Nat) (links : List String) (db : Db) : Db :=
  links.foldl (imageGo imgDl urljoin parsed_url case_id) db

/-- `scrape_case_detail(url, deep)` from the point where the page has been
fetched and parsed: upsert by `parsed.url`, apply all parsed fields, XML
enrichment, PDF and image downloads, and the last-resort PDF text fallback
(line 145: `deep and (not case.content_text or len(case.content_text) < 800)
and first_pdf_text`).  Returns the final database and the final Case row. -/
def scrape_case_detail_run (env : ScrapeEnv) (resp_url : String)
    (fields : CaseParsedFields) (deep : Bool) (db : Db) : Db × CaseRow :=
  let parsed : CaseParsed := { toCaseParsedFields := fields, url := resp_url }
  let r0 := upsertCaseRow db parsed.url env.race
  let case1 := applyParsedFields r0.2 parsed
  let db1 := setCase r0.1 case1
  let case2 := { case1 with
    content_text := xmlEnrichText env.xmlDl parsed.url parsed.content_text }
  let db2 := setCase db1 case2
  let r3 := pdfStep env.pdfDl env.urljoin parsed.url case2.id deep parsed.pdf_links db2
  let db4 := imageStep env.imgDl env.urljoin parsed.url case2.id parsed.image_links r3.1
  let fallback := deep
    && (!pyOptStrTruthy case2.content_text
        || decide ((case2.content_text.getD "").length < 800))
    && pyOptStrTruthy r3.2
  let case3 := if fallback then { case2 with content_text := r3.2 } else case2
  let db5 := if fallback then setCase db4 case3 else db4
  (db5, case3)

/-- `scrape_case_detail`'s return value: the Case id. -/
def scrape_case_detail (env : ScrapeEnv) (resp_url : String)
    (fields : CaseParsedFields) (deep : Bool) (db : Db) : Db × Nat :=
  let r := scrape_case_detail_run env resp_url fields deep db
  (r.1, r.2.id)

/-- The whole of `scrape_case_detail` including the fetch: `http_client.get`
follows redirects, and `parse_case_detail` receives `resp.url` — the final
URL — not the requested one.  `fetch_final_url` and `parse` are oracles for
the network response to a requested URL. -/
def scrape_case_detail_from (env : ScrapeEnv) (fetch_final_url : String → String)
    (parse : String → CaseParsedFields) (url : String) (deep : Bool) (db : Db) :
    Db × CaseRow :=
  let resp_url := fetch_final_url url
  scrape_case_detail_run env resp_url (parse resp_url) deep db

/-- Number of Case rows holding a given URL. -/
def urlCount (db : Db) (url : String) : Nat :=
  (db.cases.map CaseRow.url).count url

/-- Well-formedness of the store: distinct case URLs (the unique constraint
on `Case.url`), distinct primary keys, and keys below the sequence value. -/
def DbWF (db : Db) : Prop :=
  (db.cases.map CaseRow.url).Nodup ∧ (db.cases.map CaseRow.id).Nodup ∧
    ∀ c ∈ db.cases, c.id < db.next_case_id

instance (db : Db) : Decidable (DbWF db) := by
  unfold DbWF
  infer_instance

/-- The text the PDF fallback would use, stated in the amended claim's words:
the first-20-pages text of the first PDF link whose download succeeded *and*
whose extraction produced non-empty text (not necessarily the first PDF that
merely downloaded successfully). -/
def pdfFallbackText (env : ScrapeEnv) (resp_url : String) (fields : CaseParsedFields) :
    Option String :=
  fields.pdf_links.findSome? (fun l => (env.pdfDl (env.urljoin resp_url l)).bind pdfPageText)

/-- The text of one XML enrichment candidate when it passes the
per-candidate filters (download succeeded, non-empty body, XML content type
or `.xml` URL, extraction succeeded); `none` when it is skipped. -/
def eligibleText (xmlDl : String → Option XmlFetchOk) (xml_url : String) :
    Option String :=
  match xmlDl xml_url with
  | none => none
  | some r =>
    if r.content_isEmpty then none
    else if !containsSub (pyLower (r.content_type.getD "")) "xml"
        && !pyEndsWith xml_url ".xml" then none
    else r.extract

/-- The texts of the XML enrichment candidates that pass the per-candidate
filters — the pool the enrichment picks the longest non-empty text from. -/
def eligibleCandidateTexts (xmlDl : String → Option XmlFetchOk) (urls : List String) :
    List String :=
  urls.filterMap (eligibleText xmlDl)

end Hakilens

namespace Hakilens

/-! ### Lemmas about the listing crawl -/

theorem crawl_listing_go_capped (N : Nat) (hN : 1 ≤ N) :
    ∀ (pages : List ListingPage) (page_count : Nat) (ids : List Nat),
      page_count < N → (crawl_listing_go pages (some N) page_count ids).2 ≤ N := by
  intro pages
  induction pages with
  | nil =>
    intro page_count ids h
    exact Nat.le_of_lt h
  | cons page rest ih =>
    intro page_count ids h
    simp only [crawl_listing_go]
    split
    · exact h
    · next hc =>
      have hlt : page_count + 1 < N := by
        simp only [pageCapReached, Bool.and_eq_true, decide_eq_true_eq] at hc
        omega
      split
      · exact ih (page_count + 1) _ hlt
      · exact Nat.le_of_lt hlt

theorem crawl_listing_go_unbounded :
    ∀ (pages : List ListingPage) (page_count : Nat) (ids : List Nat),
      (crawl_listing_go pages none page_count ids).2 = page_count + chainLength pages := by
  intro pages
  induction pages with
  | nil => intro page_count ids; simp [crawl_listing_go, chainLength]
  | cons page rest ih =>
    intro page_count ids
    simp only [crawl_listing_go, chainLength, pageCapReached, Bool.false_eq_true, if_false]
    split
    · next hn =>
      rw [ih]
      omega
    · next hn => rfl

/-- C5: `crawl_listing` with `max_pages = N ≥ 1` fetches at most `N` listing
pages however long the `next` chain is, and with `max_pages` unset it stops
exactly when the `next` link is exhausted (visiting one page past the last
page that still has a `next` link). -/
theorem crawl_listing_page_budget (pages : List ListingPage) (N : Nat) (hN : 1 ≤ N) :
    (crawl_listing pages (some N)).2 ≤ N ∧
    (crawl_listing pages none).2 = chainLength pages := by
  constructor
  · exact crawl_listing_go_capped N hN pages 0 [] (Nat.lt_of_lt_of_le Nat.zero_lt_one hN)
  · simpa using crawl_listing_go_unbounded pages 0 []

/-- Witness for C5 at a concrete 3-page chain with a cap of 2. -/
theorem crawl_listing_page_budget_witness :
    (crawl_listing [⟨[some 1], true⟩, ⟨[some 2], true⟩, ⟨[some 3], false⟩] (some 2)).2 ≤ 2 ∧
    (crawl_listing [⟨[some 1], true⟩, ⟨[some 2], true⟩, ⟨[some 3], false⟩] none).2 =
      chainLength [⟨[some 1], true⟩, ⟨[some 2], true⟩, ⟨[some 3], false⟩] :=
  crawl_listing_page_budget _ 2 (by decide)

theorem crawl_listing_go_zero_eq_none :
    ∀ (pages : List ListingPage) (page_count : Nat) (ids : List Nat),
      crawl_listing_go pages (some 0) page_count ids = crawl_listing_go pages none page_count ids := by
  intro pages
  induction pages with
  | nil => intro page_count ids; rfl
  | cons page rest ih =>
    intro page_count ids
    simp only [crawl_listing_go, pageCapReached]
    split
    · next hn => simp at hn
    · next hn => simp [ih]

/-! ### Lemmas about the fetch layer -/

theorem attempt_get_error (dispatch : Nat → Except String RawResponse) (n : Nat)
    (h : attemptFails dispatch n) :
    attempt_get dispatch n = .error (attemptError dispatch n) := by
  unfold attemptFails at h
  unfold attempt_get attemptError
  cases hd : dispatch n with
  | error msg => rfl
  | ok resp =>
    rw [hd] at h
    have hs : 400 ≤ resp.status_code := h
    simp [hs]

theorem attempt_download_error (dispatch : Nat → Except String RawResponse) (n : Nat)
    (h : attemptFails dispatch n) :
    attempt_download dispatch n = .error (attemptError dispatch n) := by
  unfold attemptFails at h
  unfold attempt_download attemptError
  cases hd : dispatch n with
  | error msg => rfl
  | ok resp =>
    rw [hd] at h
    have hs : 400 ≤ resp.status_code := h
    simp [hs]

theorem retry_loop_three_failures (attempt : Nat → Except RequestError HttpResponse)
    (e1 e2 e3 : RequestError)
    (h1 : attempt 1 = .error e1) (h2 : attempt 2 = .error e2) (h3 : attempt 3 = .error e3) :
    retry_loop attempt 3 1 3 = (.error ⟨e3⟩, 3) := by
  rw [retry_loop, h1]
  norm_num [stop_after_attempt]
  rw [retry_loop, h2]
  norm_num [stop_after_attempt]
  rw [retry_loop, h3]
  norm_num [stop_after_attempt]

/-- C3: on a persistently failing URL (every dispatch errors or returns a
non-2xx status), `HttpClient.get` and `HttpClient.download` both make exactly
3 attempts and then propagate the failure as the retry-exhausted error
(`RetryError`, the spec's `FetchError`) carrying the last attempt's underlying
error; the configured backoff sleep between attempts is exponential with
jitter, between 1 and 10 seconds. -/
theorem http_client_retries_three_times (dispatch : Nat → Except String RawResponse)
    (hfail : ∀ n, attemptFails dispatch n) :
    http_get dispatch = (.error ⟨attemptError dispatch 3⟩, 3) ∧
    http_download dispatch = (.error ⟨attemptError dispatch 3⟩, 3) ∧
    (∀ j : ℚ, 0 ≤ j → j ≤ 1 → ∀ n : Nat,
      1 ≤ wait_exponential_jitter 1 10 2 j n ∧ wait_exponential_jitter 1 10 2 j n ≤ 10) := by
  refine ⟨?_, ?_, ?_⟩
  · exact retry_loop_three_failures _ _ _ _
      (attempt_get_error dispatch 1 (hfail 1))
      (attempt_get_error dispatch 2 (hfail 2))
      (attempt_get_error dispatch 3 (hfail 3))
  · exact retry_loop_three_failures _ _ _ _
      (attempt_download_error dispatch 1 (hfail 1))
      (attempt_download_error dispatch 2 (hfail 2))
      (attempt_download_error dispatch 3 (hfail 3))
  · intro j hj0 hj1 n
    have hpow : (1 : ℚ) ≤ 2 ^ (n - 1) := one_le_pow₀ (by norm_num)
    constructor
    · unfold wait_exponential_jitter
      have h1 : (1 : ℚ) ≤ min (1 * 2 ^ (n - 1) + j) 10 := by
        refine le_min ?_ (by norm_num)
        nlinarith
      exact le_trans h1 (le_max_right 0 _)
    · unfold wait_exponential_jitter
      exact max_le (by norm_num) (min_le_right _ _)

/-- Witness for C3: a dispatch that always raises a connection error. -/
theorem http_client_retries_three_times_witness :
    http_get (fun _ => .error "connection refused") =
      (.error ⟨.exception "connection refused"⟩, 3) ∧
    1 ≤ wait_exponential_jitter 1 10 2 (1/2) 1 := by
  have h := http_client_retries_three_times (fun _ => .error "connection refused")
    (fun n => by trivial)
  exact ⟨h.1, (h.2.2 (1/2) (by norm_num) (by norm_num) 1).1⟩

/-- C9: because the page cap tests Python truthiness of `max_pages`,
`max_pages = 0` behaves exactly like an unset cap: the crawl is unbounded
(it never stops because of the cap), rather than fetching zero pages. -/
theorem crawl_listing_zero_cap_is_unbounded (pages : List ListingPage) :
    crawl_listing pages (some 0) = crawl_listing pages none :=
  crawl_listing_go_zero_eq_none pages 0 []

/-! ### Lemmas about the structured-text extractor -/

theorem evalBodyQuery_ok (doc : XmlDocument) (u : String) (h : doc.akn_ns = some u)
    (q : AknQuery) : ∃ ns, evalBodyQuery doc q = .ok ns := by
  cases q <;> simp [evalBodyQuery, h]

theorem aknQueryLoop_spec (doc : XmlDocument)
    (hok : ∀ q, ∃ ns, evalBodyQuery doc q = .ok ns) :
    ∀ qs : List AknQuery,
      aknQueryLoop doc qs =
        .ok (((qs.map
            (fun q => trimmedNonEmptyTexts ((evalBodyQuery doc q).toOption.getD []))).find?
          (fun l => !l.isEmpty)).getD []) := by
  intro qs
  induction qs with
  | nil => rfl
  | cons q rest ih =>
    rcases hok q with ⟨ns, hq⟩
    simp only [aknQueryLoop, hq, List.map_cons, List.find?_cons]
    by_cases h1 : ns.isEmpty
    · rw [if_pos h1]
      have hns : ns = [] := List.isEmpty_iff.mp h1
      subst hns
      simpa using ih
    · rw [if_neg h1]
      by_cases h2 : (trimmedNonEmptyTexts ns).isEmpty

      · rw [if_pos h2]
        have hp : (!(trimmedNonEmptyTexts (((.ok ns : Except Unit (List XmlNode))).toOption.getD [])).isEmpty) = false := by
          simpa using h2
        rw [hp]
        exact ih
      · rw [if_neg h2]
        have hp : (!(trimmedNonEmptyTexts (((.ok ns : Except Unit (List XmlNode))).toOption.getD [])).isEmpty) = true := by
          simpa using h2
        rw [hp]
        rfl

/-- C7 amended: the extractor equals its corrected specification: the first
query whose matching containers hold at least one non-empty stripped text
node wins (a query that matches only text-less containers is skipped, not
final), the result is that query's texts newline-joined and is `""` when no
query yields text, and on a document that binds no namespace to the `akn`
prefix the extractor raises an XPath error instead of returning `""`. -/
theorem extract_plain_text_from_akn_spec (doc : XmlDocument) :
    extract_plain_text_from_akn doc = aknExtractSpec doc := by
  cases h : doc.akn_ns with
  | none =>
    have hl : aknQueryLoop doc body_candidates = .error () := by
      simp [body_candidates, aknQueryLoop, evalBodyQuery, h]
    unfold extract_plain_text_from_akn aknExtractSpec
    rw [hl, h]
    rfl
  | some u =>
    unfold extract_plain_text_from_akn aknExtractSpec
    rw [aknQueryLoop_spec doc (evalBodyQuery_ok doc u h), h]
    rfl

/-- C7 counterexample: (a) on a document whose first query `//akn:body`
matches a (text-less) node, the claimed first-match-wins rule would give
`""`, but the extractor continues to `//body` and returns `"hello"`; (b) a
namespace-free document raises an XPath error (undefined `akn` prefix)
instead of returning the empty string. -/
theorem extract_plain_text_first_query_counterexample :
    evalBodyQuery
        ⟨.element (some "urn:akn") "akomaNtoso"
          [.element (some "urn:akn") "body" [], .element none "body" [.text "hello"]],
         some "urn:akn"⟩ .descBodyAkn = .ok [.element (some "urn:akn") "body" []] ∧
    extract_plain_text_from_akn
        ⟨.element (some "urn:akn") "akomaNtoso"
          [.element (some "urn:akn") "body" [], .element none "body" [.text "hello"]],
         some "urn:akn"⟩ = .ok "hello" ∧
    extract_plain_text_from_akn
        ⟨.element none "doc" [.element none "body" [.text "x"]], none⟩ = .error () :=
  ⟨rfl, rfl, rfl⟩

/-! ### Lemmas about the store and the upsert -/

theorem dbwf_id_inj {db : Db} (h : DbWF db) {a b : CaseRow}
    (ha : a ∈ db.cases) (hb : b ∈ db.cases) (hid : a.id = b.id) : a = b :=
  List.inj_on_of_nodup_map h.2.1 ha hb hid

theorem dbwf_url_inj {db : Db} (h : DbWF db) {a b : CaseRow}
    (ha : a ∈ db.cases) (hb : b ∈ db.cases) (hurl : a.url = b.url) : a = b :=
  List.inj_on_of_nodup_map h.1 ha hb hurl

theorem urlCount_one_of_mem {db : Db} (h : DbWF db) {c : CaseRow}
    (hc : c ∈ db.cases) : urlCount db c.url = 1 := by
  have h1 : urlCount db c.url ≤ 1 :=
    List.nodup_iff_count_le_one.mp h.1 c.url
  have h2 : 0 < urlCount db c.url :=
    List.count_pos_iff.mpr (List.mem_map_of_mem CaseRow.url hc)
  omega

theorem insert_case_spec (db : Db) (w : CaseRow) (h : DbWF db)
    (hurl : ∀ r ∈ db.cases, r.url ≠ w.url) (hid : w.id = db.next_case_id) :
    DbWF { db with cases := db.cases ++ [w], next_case_id := db.next_case_id + 1 } := by
  obtain ⟨hu, hi, hlt⟩ := h
  refine ⟨?_, ?_, ?_⟩
  · rw [List.map_append]
    refine hu.append (List.nodup_singleton _) ?_
    intro u hu1 hu2
    simp only [List.map_cons, List.map_nil, List.mem_singleton] at hu2
    rcases List.mem_map.mp hu1 with ⟨r, hr, hru⟩
    exact hurl r hr (hru.trans hu2)
  · rw [List.map_append]
    refine hi.append (List.nodup_singleton _) ?_
    intro i hi1 hi2
    simp only [List.map_cons, List.map_nil, List.mem_singleton] at hi2
    rcases List.mem_map.mp hi1 with ⟨r, hr, hri⟩
    have := hlt r hr
    omega
  · intro c hc
    show c.id < db.next_case_id + 1
    rcases List.mem_append.mp hc with hc | hc
    · have := hlt c hc
      omega
    · simp only [List.mem_singleton] at hc
      subst hc
      omega

theorem newCaseRow_spec (db : Db) (url : String) (h : DbWF db)
    (hnone : ∀ r ∈ db.cases, r.url ≠ url) :
    DbWF (newCaseRow db url).1 ∧ (newCaseRow db url).2.url = url ∧
    (newCaseRow db url).2 ∈ (newCaseRow db url).1.cases ∧
    urlCount (newCaseRow db url).1 url = 1 ∧
    (newCaseRow db url).1.documents = db.documents ∧
    (newCaseRow db url).1.images = db.images := by
  have hwf := insert_case_spec db
    { id := db.next_case_id, url := url, court := none, case_number := none,
      parties := none, judges := none, date := none, citation := none,
      title := none, summary := none, content_text := none } h
    (fun q hq => hnone q hq) rfl
  have hm : ({ id := db.next_case_id, url := url, court := none, case_number := none,
               parties := none, judges := none, date := none, citation := none,
               title := none, summary := none, content_text := none } : CaseRow) ∈
      (newCaseRow db url).1.cases := by
    simp [newCaseRow]
  exact ⟨hwf, rfl, hm, urlCount_one_of_mem hwf hm, rfl, rfl⟩

theorem upsertCaseRow_spec (db : Db) (url : String) (race : Option CaseRow)
    (h : DbWF db) :
    DbWF (upsertCaseRow db url race).1 ∧
    (upsertCaseRow db url race).2.url = url ∧
    (upsertCaseRow db url race).2 ∈ (upsertCaseRow db url race).1.cases ∧
    urlCount (upsertCaseRow db url race).1 url = 1 ∧
    (upsertCaseRow db url race).1.documents = db.documents ∧
    (upsertCaseRow db url race).1.images = db.images ∧
    (∀ r ∈ db.cases, r.url = url → (upsertCaseRow db url race).2 = r) := by
  cases hf : findCase db url with
  | some existing =>
    have he : upsertCaseRow db url race = (db, existing) := by
      unfold upsertCaseRow
      rw [hf]
    rw [he]
    have hmem : existing ∈ db.cases := List.mem_of_find?_eq_some hf
    have hurl : existing.url = url := by simpa using List.find?_some hf
    refine ⟨h, hurl, hmem, ?_, rfl, rfl, ?_⟩
    · rw [← hurl]
      exact urlCount_one_of_mem h hmem
    · intro r hr hru
      exact dbwf_url_inj h hmem hr (hurl.trans hru.symm)
  | none =>
    have hnone : ∀ r ∈ db.cases, r.url ≠ url := fun r hr => by
      simpa using List.find?_eq_none.mp hf r hr
    cases race with
    | some r =>
      have he : upsertCaseRow db url (some r) =
          ({ db with cases := db.cases ++ [{ r with id := db.next_case_id, url := url }],
                     next_case_id := db.next_case_id + 1 },
           { r with id := db.next_case_id, url := url }) := by
        unfold upsertCaseRow
        rw [hf]
      rw [he]
      have hwf := insert_case_spec db { r with id := db.next_case_id, url := url } h
        (fun q hq => hnone q hq) rfl
      have hm : ({ r with id := db.next_case_id, url := url } : CaseRow) ∈
          db.cases ++ [{ r with id := db.next_case_id, url := url }] := by
        simp
      refine ⟨hwf, rfl, hm, ?_, rfl, rfl, fun q hq hqu => absurd hqu (hnone q hq)⟩
      exact urlCount_one_of_mem hwf hm
    | none =>
      have he : upsertCaseRow db url none = newCaseRow db url := by
        unfold upsertCaseRow
        rw [hf]
      rw [he]
      obtain ⟨h1, h2, h3, h4, h5, h6⟩ := newCaseRow_spec db url h hnone
      exact ⟨h1, h2, h3, h4, h5, h6, fun q hq hqu => absurd hqu (hnone q hq)⟩

theorem setCase_spec (db : Db) (c c' : CaseRow) (h : DbWF db) (hc : c ∈ db.cases)
    (hid : c'.id = c.id) (hurl : c'.url = c.url) :
    (setCase db c').cases.map CaseRow.url = db.cases.map CaseRow.url ∧
    (setCase db c').cases.map CaseRow.id = db.cases.map CaseRow.id ∧
    DbWF (setCase db c') ∧
    c' ∈ (setCase db c').cases ∧
    (setCase db c').documents = db.documents ∧
    (setCase db c').images = db.images ∧
    (setCase db c').next_case_id = db.next_case_id := by
  have hre : ∀ r ∈ db.cases, (if r.id == c'.id then c' else r).url = r.url := by
    intro r hr
    by_cases hrid : r.id = c'.id
    · have : r = c := dbwf_id_inj h hr hc (hrid.trans hid)
      subst this
      simp [hrid, hurl]
    · simp [hrid]
  have hridm : ∀ r ∈ db.cases, (if r.id == c'.id then c' else r).id = r.id := by
    intro r hr
    by_cases hrid : r.id = c'.id
    · simp [hrid]
    · simp [hrid]
  have hmu : (setCase db c').cases.map CaseRow.url = db.cases.map CaseRow.url := by
    unfold setCase
    rw [List.map_map]
    exact List.map_congr_left hre
  have hmi : (setCase db c').cases.map CaseRow.id = db.cases.map CaseRow.id := by
    unfold setCase
    rw [List.map_map]
    exact List.map_congr_left hridm
  refine ⟨hmu, hmi, ⟨?_, ?_, ?_⟩, ?_, rfl, rfl, rfl⟩
  · rw [hmu]; exact h.1
  · rw [hmi]; exact h.2.1
  · intro r hr
    unfold setCase at hr
    simp only [List.mem_map] at hr
    rcases hr with ⟨q, hq, hqr⟩
    have : r.id = q.id := by rw [← hqr]; exact hridm q hq
    rw [this]
    exact h.2.2 q hq
  · unfold setCase
    simp only [List.mem_map]
    exact ⟨c, hc, by simp [hid.symm]⟩

theorem DbWF_transfer {db db' : Db} (hc : db'.cases = db.cases)
    (hn : db'.next_case_id = db.next_case_id) (h : DbWF db) : DbWF db' := by
  unfold DbWF at h ⊢
  rw [hc, hn]
  exact h

theorem pdfGo_frame (pdfDl : String → Option PdfFetchOk)
    (uj : String → String → String) (purl : String) (cid : Nat) (deep : Bool)
    (st : Db × Option String) (link : String) :
    (pdfGo pdfDl uj purl cid deep st link).1.cases = st.1.cases ∧
    (pdfGo pdfDl uj purl cid deep st link).1.next_case_id = st.1.next_case_id ∧
    (pdfGo pdfDl uj purl cid deep st link).1.images = st.1.images := by
  simp only [pdfGo]
  split
  · exact ⟨rfl, rfl, rfl⟩
  · split
    · split
      · exact ⟨rfl, rfl, rfl⟩
      · exact ⟨rfl, rfl, rfl⟩
    · exact ⟨rfl, rfl, rfl⟩

theorem pdfGo_snd (pdfDl : String → Option PdfFetchOk)
    (uj : String → String → String) (purl : String) (cid : Nat) (deep : Bool)
    (st : Db × Option String) (link : String) :
    (pdfGo pdfDl uj purl cid deep st link).2 =
      match st.2 with
      | some t => some t
      | none => if deep then (pdfDl (uj purl link)).bind pdfPageText else none := by
  simp only [pdfGo]
  split
  · next hdl =>
    rw [hdl]
    cases hst : st.2 with
    | some t => rfl
    | none => cases deep <;> rfl
  · next r hdl =>
    rw [hdl]
    cases hst : st.2 with
    | some t => simp [hst]
    | none =>
      cases deep with
      | false => simp [hst]
      | true =>
        simp only [hst, Option.isNone_none, Bool.and_self, if_true, Option.some_bind]
        cases hp : pdfPageText r with
        | none => simp [hp]
        | some t => simp [hp]

theorem pdfFold_frame (pdfDl : String → Option PdfFetchOk)
    (uj : String → String → String) (purl : String) (cid : Nat) (deep : Bool) :
    ∀ (links : List String) (st : Db × Option String),
      (links.foldl (pdfGo pdfDl uj purl cid deep) st).1.cases = st.1.cases ∧
      (links.foldl (pdfGo pdfDl uj purl cid deep) st).1.next_case_id = st.1.next_case_id ∧
      (links.foldl (pdfGo pdfDl uj purl cid deep) st).1.images = st.1.images := by
  intro links
  induction links with
  | nil => intro st; exact ⟨rfl, rfl, rfl⟩
  | cons link rest ih =>
    intro st
    rw [List.foldl_cons]
    obtain ⟨h1, h2, h3⟩ := ih (pdfGo pdfDl uj purl cid deep st link)
    obtain ⟨g1, g2, g3⟩ := pdfGo_frame pdfDl uj purl cid deep st link
    exact ⟨h1.trans g1, h2.trans g2, h3.trans g3⟩

theorem imageGo_frame (imgDl : String → Option ImageFetchOk)
    (uj : String → String → String) (purl : String) (cid : Nat)
    (db : Db) (link : String) :
    (imageGo imgDl uj purl cid db link).cases = db.cases ∧
    (imageGo imgDl uj purl cid db link).next_case_id = db.next_case_id ∧
    (imageGo imgDl uj purl cid db link).documents = db.documents := by
  simp only [imageGo]
  cases hdl : imgDl (uj purl link) with
  | none => exact ⟨rfl, rfl, rfl⟩
  | some r => exact ⟨rfl, rfl, rfl⟩

theorem imageFold_frame (imgDl : String → Option ImageFetchOk)
    (uj : String → String → String) (purl : String) (cid : Nat) :
    ∀ (links : List String) (db : Db),
      (links.foldl (imageGo imgDl uj purl cid) db).cases = db.cases ∧
      (links.foldl (imageGo imgDl uj purl cid) db).next_case_id = db.next_case_id ∧
      (links.foldl (imageGo imgDl uj purl cid) db).documents = db.documents := by
  intro links
  induction links with
  | nil => intro db; exact ⟨rfl, rfl, rfl⟩
  | cons link rest ih =>
    intro db
    rw [List.foldl_cons]
    obtain ⟨h1, h2, h3⟩ := ih (imageGo imgDl uj purl cid db link)
    obtain ⟨g1, g2, g3⟩ := imageGo_frame imgDl uj purl cid db link
    exact ⟨h1.trans g1, h2.trans g2, h3.trans g3⟩

theorem pdfFold_snd (pdfDl : String → Option PdfFetchOk)
    (uj : String → String → String) (purl : String) (cid : Nat) (deep : Bool) :
    ∀ (links : List String) (st : Db × Option String),
      (links.foldl (pdfGo pdfDl uj purl cid deep) st).2 =
        match st.2 with
        | some t => some t
        | none =>
          if deep then links.findSome? (fun l => (pdfDl (uj purl l)).bind pdfPageText)
          else none := by
  intro links
  induction links with
  | nil =>
    intro st
    rw [List.foldl_nil]
    cases hst : st.2 with
    | some t => rfl
    | none => cases deep <;> rfl
  | cons link rest ih =>
    intro st
    rw [List.foldl_cons, ih, pdfGo_snd]
    cases hst : st.2 with
    | some t => rfl
    | none =>
      cases deep with
      | false => rfl
      | true =>
        simp only [if_true]
        cases hb : (pdfDl (uj purl link)).bind pdfPageText with
        | none => simp [List.findSome?_cons, hb]
        | some t => simp [List.findSome?_cons, hb]

theorem string_length_pos {s : String} (h : s.isEmpty = false) : 0 < s.length := by
  have hne : s ≠ "" := fun he => by rw [he] at h; exact absurd h (by decide)
  have h0 : s.length ≠ 0 := by
    intro h0
    apply hne
    have h1 : s.data = [] := List.length_eq_zero.mp h0
    cases s
    simp_all
  omega

theorem aknGo_eq (dl : String → Option XmlFetchOk) (acc : Option String) (url : String) :
    aknGo dl acc url =
      match eligibleText dl url with
      | none => acc
      | some t =>
        if !t.isEmpty && (acc.getD "").length < t.length then some t else acc := by
  simp only [aknGo, eligibleText]
  split
  · rfl
  · next r _ =>
    split
    · rfl
    · split
      · rfl
      · cases r.extract <;> rfl

theorem aknGo_eq_none (dl : String → Option XmlFetchOk) (acc : Option String)
    (url : String) (h : eligibleText dl url = none) : aknGo dl acc url = acc := by
  rw [aknGo_eq, h]

theorem aknGo_eq_some (dl : String → Option XmlFetchOk) (acc : Option String)
    (url : String) (t : String) (h : eligibleText dl url = some t) :
    aknGo dl acc url =
      (if !t.isEmpty && (acc.getD "").length < t.length then some t else acc) := by
  rw [aknGo_eq, h]

theorem aknFold_spec (dl : String → Option XmlFetchOk) :
    ∀ (urls : List String) (acc : Option String),
      optLen acc ≤ optLen (urls.foldl (aknGo dl) acc) ∧
      (∀ t ∈ eligibleCandidateTexts dl urls,
        t.length ≤ optLen (urls.foldl (aknGo dl) acc)) ∧
      (∀ t, urls.foldl (aknGo dl) acc = some t →
        (t ∈ eligibleCandidateTexts dl urls ∧ t.isEmpty = false) ∨ acc = some t) := by
  intro urls
  induction urls with
  | nil =>
    intro acc
    refine ⟨le_refl _, ?_, ?_⟩
    · intro t ht
      simp [eligibleCandidateTexts] at ht
    · intro t h
      right
      exact h
  | cons url rest ih =>
    intro acc
    rw [List.foldl_cons]
    cases he : eligibleText dl url with
    | none =>
      have hel : eligibleCandidateTexts dl (url :: rest) = eligibleCandidateTexts dl rest := by
        simp [eligibleCandidateTexts, List.filterMap_cons, he]
      rw [aknGo_eq_none dl acc url he, hel]
      exact ih acc
    | some t0 =>
      have hel : eligibleCandidateTexts dl (url :: rest) =
          t0 :: eligibleCandidateTexts dl rest := by
        simp [eligibleCandidateTexts, List.filterMap_cons, he]
      rw [aknGo_eq_some dl acc url t0 he, hel]
      by_cases hc : (!t0.isEmpty && decide ((acc.getD "").length < t0.length)) = true
      · rw [if_pos hc]
        simp only [Bool.and_eq_true, Bool.not_eq_true', decide_eq_true_eq] at hc
        obtain ⟨ih1, ih2, ih3⟩ := ih (some t0)
        have hlen : optLen (some t0) = t0.length := rfl
        refine ⟨?_, ?_, ?_⟩
        · have h1 := ih1
          unfold optLen at h1 ⊢
          simp only [Option.getD_some] at h1
          omega
        · intro t ht
          rcases List.mem_cons.mp ht with ht | ht
          · subst ht
            rw [← hlen]
            exact ih1
          · exact ih2 t ht
        · intro t hres
          rcases ih3 t hres with h | h
          · exact Or.inl ⟨List.mem_cons_of_mem _ h.1, h.2⟩
          · have ht : t = t0 := (Option.some.injEq _ _ ▸ h).symm
            subst ht
            exact Or.inl ⟨List.mem_cons_self _ _, hc.1⟩
      · rw [if_neg hc]
        simp only [Bool.and_eq_true, Bool.not_eq_true', decide_eq_true_eq, not_and,
          Classical.not_imp, not_lt] at hc
        obtain ⟨ih1, ih2, ih3⟩ := ih acc
        refine ⟨ih1, ?_, ?_⟩
        · intro t ht
          rcases List.mem_cons.mp ht with ht | ht
          · subst ht
            by_cases hemp : t.isEmpty = true
            · have : t = "" := (String.isEmpty_iff t).mp hemp
              subst this
              simp
            · have hle : t.length ≤ (acc.getD "").length := by
                have := hc (by simpa using hemp)
                omega
              calc t.length ≤ (acc.getD "").length := hle
                _ = optLen acc := rfl
                _ ≤ _ := ih1
          · exact ih2 t ht
        · intro t hres
          rcases ih3 t hres with h | h
          · exact Or.inl ⟨List.mem_cons_of_mem _ h.1, h.2⟩
          · exact Or.inr h

theorem falsy_or_lt (o : Option String) (n : Nat) (hn : 0 < n) :
    (!pyOptStrTruthy o || decide ((o.getD "").length < n)) = decide (optLen o < n) := by
  cases o with
  | none => simp [pyOptStrTruthy, optLen, hn]
  | some s =>
    by_cases hs : s.isEmpty = true
    · have : s = "" := (String.isEmpty_iff s).mp hs
      subst this
      simp [pyOptStrTruthy, optLen, hn]
    · have hs' : s.isEmpty = false := by simpa using hs
      simp [pyOptStrTruthy, optLen, hs']

/-- C4: during a deep detail scrape of a URL containing the `/eng@`
document-identifier marker, the XML enrichment step keeps the longest
non-empty text among the eligible candidate fetches (per-candidate failures
are swallowed by modelling: skipped candidates contribute nothing), and it
overwrites `content_text` with that text exactly when it is non-empty and
strictly longer than the current best text, leaving `content_text` unchanged
otherwise (also when no candidate is kept at all). -/
theorem xml_enrichment_longest_wins (dl : String → Option XmlFetchOk) (url : String)
    (ct : Option String) (deep : Bool) (hdeep : deep = true)
    (hmark : containsSub url "/eng@" = true) :
    (∀ t ∈ eligibleCandidateTexts dl (xml_candidates (splitFirstBefore url "/eng@")),
      t.length ≤ optLen (aknCandidateFold dl (xml_candidates (splitFirstBefore url "/eng@")))) ∧
    (∀ akn, aknCandidateFold dl (xml_candidates (splitFirstBefore url "/eng@")) = some akn →
      akn ∈ eligibleCandidateTexts dl (xml_candidates (splitFirstBefore url "/eng@")) ∧
      akn.isEmpty = false ∧
      xmlEnrichText dl url ct = (if optLen ct < akn.length then some akn else ct)) ∧
    (aknCandidateFold dl (xml_candidates (splitFirstBefore url "/eng@")) = none →
      xmlEnrichText dl url ct = ct) := by
  obtain ⟨_, h2, h3⟩ := aknFold_spec dl (xml_candidates (splitFirstBefore url "/eng@")) none
  refine ⟨h2, ?_, ?_⟩
  · intro akn hres
    have hres' : aknCandidateFold dl (xml_candidates (splitFirstBefore url "/eng@")) =
        some akn := hres
    rcases h3 akn hres with h | h
    · refine ⟨h.1, h.2, ?_⟩
      unfold xmlEnrichText
      rw [if_pos hmark, hres']
      have hb := falsy_or_lt ct akn.length (string_length_pos h.2)
      simp only [h.2, Bool.not_false, Bool.true_and, hb, decide_eq_true_eq]
    · exact absurd h (by simp)
  · intro hres
    have hres' : aknCandidateFold dl (xml_candidates (splitFirstBefore url "/eng@")) =
        none := hres
    unfold xmlEnrichText
    rw [if_pos hmark, hres']

/-- Witness for C4: a single eligible candidate whose text is longer than the
HTML-derived text overwrites it. -/
theorem xml_enrichment_longest_wins_witness :
    xmlEnrichText
      (fun u => if u = "https://s/akn/x/eng@/main.xml" then
          some { content_isEmpty := false, content_type := some "application/xml",
                 extract := some "a longer structured body text" }
        else none)
      "https://s/akn/x/eng@2020-01-01" (some "ab") = some "a longer structured body text" := by
  have h := (xml_enrichment_longest_wins
    (fun u => if u = "https://s/akn/x/eng@/main.xml" then
        some { content_isEmpty := false, content_type := some "application/xml",
               extract := some "a longer structured body text" }
      else none)
    "https://s/akn/x/eng@2020-01-01" (some "ab") true rfl (by decide)).2.1
    "a longer structured body text" (by decide)
  rw [h.2.2]
  decide

theorem urlCount_congr {db db' : Db}
    (h : db'.cases.map CaseRow.url = db.cases.map CaseRow.url) (u : String) :
    urlCount db' u = urlCount db u := by
  unfold urlCount
  rw [h]

theorem scrape_run_spec (env : ScrapeEnv) (resp_url : String) (fields : CaseParsedFields)
    (deep : Bool) (db : Db) (h : DbWF db) :
    DbWF (scrape_case_detail_run env resp_url fields deep db).1 ∧
    (scrape_case_detail_run env resp_url fields deep db).2.url = resp_url ∧
    (scrape_case_detail_run env resp_url fields deep db).2 ∈
      (scrape_case_detail_run env resp_url fields deep db).1.cases ∧
    urlCount (scrape_case_detail_run env resp_url fields deep db).1 resp_url = 1 ∧
    (∀ r ∈ db.cases, r.url = resp_url →
      (scrape_case_detail_run env resp_url fields deep db).2.id = r.id) := by
  obtain ⟨u1, u2, u3, u4, _, _, u7⟩ := upsertCaseRow_spec db resp_url env.race h
  simp only [scrape_case_detail_run]
  set r0 := upsertCaseRow db resp_url env.race with hr0
  set parsed : CaseParsed := { toCaseParsedFields := fields, url := resp_url } with hparsed
  set case1 := applyParsedFields r0.2 parsed with hcase1
  have hc1id : case1.id = r0.2.id := rfl
  have hc1url : case1.url = r0.2.url := rfl
  obtain ⟨m1u, m1i, w1, mem1, _, _, n1⟩ := setCase_spec r0.1 r0.2 case1 u1 u3 hc1id hc1url
  set db1 := setCase r0.1 case1 with hdb1
  set case2 : CaseRow :=
    { case1 with content_text := xmlEnrichText env.xmlDl parsed.url parsed.content_text }
    with hcase2
  have hc2id : case2.id = case1.id := rfl
  have hc2url : case2.url = case1.url := rfl
  obtain ⟨m2u, m2i, w2, mem2, _, _, n2⟩ := setCase_spec db1 case1 case2 w1 mem1 hc2id hc2url
  set db2 := setCase db1 case2 with hdb2
  obtain ⟨p1, p2, _⟩ := pdfFold_frame env.pdfDl env.urljoin parsed.url case2.id deep
    parsed.pdf_links (db2, none)
  set r3 := pdfStep env.pdfDl env.urljoin parsed.url case2.id deep parsed.pdf_links db2
    with hr3
  have hp1 : r3.1.cases = db2.cases := p1
  have hp2 : r3.1.next_case_id = db2.next_case_id := p2
  have w3 : DbWF r3.1 := DbWF_transfer hp1 hp2 w2
  have mem3 : case2 ∈ r3.1.cases := by rw [hp1]; exact mem2
  obtain ⟨q1, q2, _⟩ := imageFold_frame env.imgDl env.urljoin parsed.url case2.id
    parsed.image_links r3.1
  set db4 := imageStep env.imgDl env.urljoin parsed.url case2.id parsed.image_links r3.1
    with hdb4
  have hq1 : db4.cases = r3.1.cases := q1
  have hq2 : db4.next_case_id = r3.1.next_case_id := q2
  have w4 : DbWF db4 := DbWF_transfer hq1 hq2 w3
  have mem4 : case2 ∈ db4.cases := by rw [hq1]; exact mem3
  have hmu4 : db4.cases.map CaseRow.url = r0.1.cases.map CaseRow.url := by
    rw [hq1, hp1, m2u, m1u]
  have hcount4 : urlCount db4 resp_url = 1 := (urlCount_congr hmu4 resp_url).trans u4
  split
  · -- the PDF fallback fired: the row is mutated once more and committed
    obtain ⟨m5u, _, w5, mem5, _, _, _⟩ :=
      setCase_spec db4 case2 { case2 with content_text := r3.2 } w4 mem4 rfl rfl
    refine ⟨w5, ?_, mem5, ?_, ?_⟩
    · show case2.url = resp_url
      rw [hc2url, hc1url]
      exact u2
    · rw [urlCount_congr m5u]
      exact hcount4
    · intro r hr hru
      have hrr := u7 r hr hru
      show case2.id = r.id
      rw [hc2id, hc1id, hrr]
  · -- no fallback: the final state is the post-assets database
    refine ⟨w4, ?_, mem4, hcount4, ?_⟩
    · rw [hc2url, hc1url]
      exact u2
    · intro r hr hru
      have hrr := u7 r hr hru
      rw [hc2id, hc1id, hrr]

theorem pdfStep_snd (pdfDl : String → Option PdfFetchOk)
    (uj : String → String → String) (purl : String) (cid : Nat) (deep : Bool)
    (links : List String) (db : Db) :
    (pdfStep pdfDl uj purl cid deep links db).2 =
      if deep then links.findSome? (fun l => (pdfDl (uj purl l)).bind pdfPageText)
      else none := by
  unfold pdfStep
  rw [pdfFold_snd]

theorem scrape_run_content_text (env : ScrapeEnv) (resp_url : String)
    (fields : CaseParsedFields) (deep : Bool) (db : Db) :
    (scrape_case_detail_run env resp_url fields deep db).2.content_text =
      (if (deep
          && (!pyOptStrTruthy (xmlEnrichText env.xmlDl resp_url fields.content_text)
              || decide (((xmlEnrichText env.xmlDl resp_url fields.content_text).getD "").length < 800))
          && pyOptStrTruthy (if deep then pdfFallbackText env resp_url fields else none)) = true
       then (if deep then pdfFallbackText env resp_url fields else none)
       else xmlEnrichText env.xmlDl resp_url fields.content_text) := by
  simp only [scrape_case_detail_run]
  rw [pdfStep_snd, apply_ite CaseRow.content_text]
  rfl

theorem pdfPageText_not_empty (r : PdfFetchOk) (t : String)
    (h : pdfPageText r = some t) : t.isEmpty = false := by
  simp only [pdfPageText] at h
  cases hp : r.pages with
  | none =>
    rw [hp] at h
    exact absurd h (by simp)
  | some pages =>
    rw [hp] at h
    have h2 : (if (pyStrip (String.intercalate "\n"
          ((pages.take 20).map (fun p => p.getD "")))).isEmpty = true then none
        else some (pyStrip (String.intercalate "\n"
          ((pages.take 20).map (fun p => p.getD ""))))) = some t := h
    by_cases he :
        (pyStrip (String.intercalate "\n" ((pages.take 20).map (fun p => p.getD "")))).isEmpty = true
    · rw [if_pos he] at h2
      cases h2
    · rw [if_neg he] at h2
      have ht : pyStrip (String.intercalate "\n" ((pages.take 20).map (fun p => p.getD ""))) = t :=
        Option.some.inj h2
      rw [← ht]
      simpa using he

theorem pdfFallbackText_truthy (env : ScrapeEnv) (resp_url : String)
    (fields : CaseParsedFields) :
    pyOptStrTruthy (pdfFallbackText env resp_url fields) =
      (pdfFallbackText env resp_url fields).isSome := by
  cases hf : pdfFallbackText env resp_url fields with
  | none => rfl
  | some t =>
    obtain ⟨l, _, he⟩ := List.exists_of_findSome?_eq_some hf
    cases hdl : env.pdfDl (env.urljoin resp_url l) with
    | none =>
      rw [hdl] at he
      exact absurd he (by simp)
    | some r =>
      rw [hdl] at he
      simp only [Option.some_bind] at he
      have hne := pdfPageText_not_empty r t he
      simp [pyOptStrTruthy, hne]

theorem optLen_eq_zero_of_falsy {o : Option String} (h : pyOptStrTruthy o = false) :
    optLen o = 0 := by
  cases o with
  | none => rfl
  | some s =>
    simp only [pyOptStrTruthy] at h
    have he : s.isEmpty = true := by simpa using h
    have : s = "" := (String.isEmpty_iff s).mp he
    subst this
    rfl

theorem xmlEnrichText_le (dl : String → Option XmlFetchOk) (url : String)
    (ct : Option String) :
    optLen ct ≤ optLen (xmlEnrichText dl url ct) := by
  unfold xmlEnrichText
  split
  · split
    · next akn heq =>
      by_cases hc : (!akn.isEmpty
          && (!pyOptStrTruthy ct || decide ((ct.getD "").length < akn.length))) = true
      · rw [if_pos hc]
        simp only [Bool.and_eq_true, Bool.or_eq_true, Bool.not_eq_true',
          decide_eq_true_eq] at hc
        rcases hc.2 with hfalsy | hlt
        · rw [optLen_eq_zero_of_falsy hfalsy]
          exact Nat.zero_le _
        · unfold optLen
          simp only [Option.getD_some]
          omega
      · rw [if_neg hc]
    · exact le_refl _
  · exact le_refl _

/-- C8: `is_listing_page` returns `true` exactly when the page has a
`rel="next"` anchor or at least 5 result/card/list containers; in particular a
`rel="next"` anchor alone suffices (first rule, evaluated first), the
container count is consulted only otherwise, and a page matching neither rule
is classified as a detail page (`false`). -/
theorem is_listing_page_heuristic (doc : HtmlDoc) :
    is_listing_page doc =
      (!(selectNextAnchors doc).isEmpty || decide (5 ≤ (selectListingContainers doc).length)) := by
  unfold is_listing_page
  split
  · next h => simp_all
  · next h =>
    split
    · next h5 => simp_all
    · next h5 => simp_all

/-- C2: for every URL, a detail scrape never creates a second Case row for
that URL: on a well-formed store the result is well-formed (so at most one
Case per distinct url everywhere, including under the modelled insert race,
which is recovered by re-reading the winning row), exactly one row holds the
scraped URL afterwards, and when a row with that URL already existed the
returned Case is that same row (same primary key), mutated in place. -/
theorem scrape_case_detail_upsert_unique (env : ScrapeEnv) (resp_url : String)
    (fields : CaseParsedFields) (deep : Bool) (db : Db) (h : DbWF db) :
    DbWF (scrape_case_detail_run env resp_url fields deep db).1 ∧
    urlCount (scrape_case_detail_run env resp_url fields deep db).1 resp_url = 1 ∧
    (∀ r ∈ db.cases, r.url = resp_url →
      (scrape_case_detail_run env resp_url fields deep db).2.id = r.id) := by
  obtain ⟨a, _, _, d, e⟩ := scrape_run_spec env resp_url fields deep db h
  exact ⟨a, d, e⟩

/-- Witness for C2: scraping twice into an initially empty store, with a
simulated concurrent insert on the first run, leaves exactly one row. -/
theorem scrape_case_detail_upsert_unique_witness :
    urlCount (scrape_case_detail_run
      ⟨fun _ l => l, fun _ => none, fun _ => none, fun _ => none,
       some { id := 99, url := "https://x/case/1", court := none, case_number := none,
              parties := none, judges := none, date := none, citation := none,
              title := some "winner", summary := none, content_text := none }⟩
      "https://x/case/1"
      ⟨none, none, none, none, none, none, none, some "body", [], []⟩
      false ⟨[], [], [], 0⟩).1 "https://x/case/1" = 1 :=
  (scrape_case_detail_upsert_unique
    ⟨fun _ l => l, fun _ => none, fun _ => none, fun _ => none,
     some { id := 99, url := "https://x/case/1", court := none, case_number := none,
            parties := none, judges := none, date := none, citation := none,
            title := some "winner", summary := none, content_text := none }⟩
    "https://x/case/1"
    ⟨none, none, none, none, none, none, none, some "body", [], []⟩
    false ⟨[], [], [], 0⟩ (by decide)).2.1

/-- C10: the Case is keyed by the final response URL after redirects, not the
requested URL: the stored/returned row's `url` is `fetch u₁` (the final URL),
and scraping two different request URLs that resolve to the same final URL
touches one single row — the second run returns the same primary key and the
store still holds exactly one row for that final URL. -/
theorem scrape_case_detail_keys_by_final_url (env : ScrapeEnv)
    (fetch_final_url : String → String) (parse : String → CaseParsedFields)
    (u1 u2 : String) (deep : Bool) (db : Db) (h : DbWF db)
    (hredir : fetch_final_url u1 = fetch_final_url u2) :
    (scrape_case_detail_from env fetch_final_url parse u1 deep db).2.url =
      fetch_final_url u1 ∧
    urlCount (scrape_case_detail_from env fetch_final_url parse u2 deep
        (scrape_case_detail_from env fetch_final_url parse u1 deep db).1).1
      (fetch_final_url u1) = 1 ∧
    (scrape_case_detail_from env fetch_final_url parse u2 deep
        (scrape_case_detail_from env fetch_final_url parse u1 deep db).1).2.id =
      (scrape_case_detail_from env fetch_final_url parse u1 deep db).2.id := by
  obtain ⟨w1, url1, mem1, _, _⟩ :=
    scrape_run_spec env (fetch_final_url u1) (parse (fetch_final_url u1)) deep db h
  have url1' : (scrape_case_detail_from env fetch_final_url parse u1 deep db).2.url =
      fetch_final_url u1 := url1
  have mem1' : (scrape_case_detail_from env fetch_final_url parse u1 deep db).2 ∈
      (scrape_case_detail_from env fetch_final_url parse u1 deep db).1.cases := mem1
  have w1' : DbWF (scrape_case_detail_from env fetch_final_url parse u1 deep db).1 := w1
  obtain ⟨_, _, _, cnt2, ids2⟩ :=
    scrape_run_spec env (fetch_final_url u2) (parse (fetch_final_url u2)) deep
      (scrape_case_detail_from env fetch_final_url parse u1 deep db).1 w1'
  refine ⟨url1', ?_, ?_⟩
  · rw [hredir]
    exact cnt2
  · exact ids2 (scrape_case_detail_from env fetch_final_url parse u1 deep db).2 mem1'
      (url1'.trans hredir)

/-- Witness for C10: two request URLs resolving to the same final URL. -/
theorem scrape_case_detail_keys_by_final_url_witness :
    (scrape_case_detail_from
      ⟨fun _ l => l, fun _ => none, fun _ => none, fun _ => none, none⟩
      (fun _ => "https://x/final") (fun _ => ⟨none, none, none, none, none, none, none,
        some "body", [], []⟩) "https://x/a" false ⟨[], [], [], 0⟩).2.url =
      "https://x/final" :=
  (scrape_case_detail_keys_by_final_url
    ⟨fun _ l => l, fun _ => none, fun _ => none, fun _ => none, none⟩
    (fun _ => "https://x/final") (fun _ => ⟨none, none, none, none, none, none, none,
      some "body", [], []⟩) "https://x/a" "https://x/b" false ⟨[], [], [], 0⟩
    (by decide) rfl).1

/-- C6 (amended): in a deep detail scrape, the PDF fallback text is the
first-20-pages text of the first PDF whose download succeeded *and* whose
extraction yielded non-empty text (`pdfFallbackText` — not necessarily the
first successfully downloaded PDF: a PDF whose extraction raises or strips to
empty is passed over); after all assets are processed it replaces
`content_text` exactly when the current text is empty or shorter than 800
characters and such a PDF text exists, so a text of 800 or more characters is
never replaced. -/
theorem scrape_pdf_fallback_spec (env : ScrapeEnv) (resp_url : String)
    (fields : CaseParsedFields) (db : Db) :
    (scrape_case_detail_run env resp_url fields true db).2.content_text =
      (if optLen (xmlEnrichText env.xmlDl resp_url fields.content_text) < 800 ∧
          (pdfFallbackText env resp_url fields).isSome = true
       then pdfFallbackText env resp_url fields
       else xmlEnrichText env.xmlDl resp_url fields.content_text) := by
  rw [scrape_run_content_text]
  have hlt := falsy_or_lt (xmlEnrichText env.xmlDl resp_url fields.content_text) 800
    (by norm_num)
  show (if ((!pyOptStrTruthy (xmlEnrichText env.xmlDl resp_url fields.content_text)
        || decide (((xmlEnrichText env.xmlDl resp_url fields.content_text).getD "").length < 800))
      && pyOptStrTruthy (pdfFallbackText env resp_url fields)) = true
    then pdfFallbackText env resp_url fields
    else xmlEnrichText env.xmlDl resp_url fields.content_text) = _
  rw [hlt, pdfFallbackText_truthy]
  by_cases hc : optLen (xmlEnrichText env.xmlDl resp_url fields.content_text) < 800 ∧
      (pdfFallbackText env resp_url fields).isSome = true
  · have hb : (decide (optLen (xmlEnrichText env.xmlDl resp_url fields.content_text) < 800)
        && (pdfFallbackText env resp_url fields).isSome) = true := by
      simp [hc.1, hc.2]
    rw [if_pos hb, if_pos hc]
  · have hb : ¬((decide (optLen (xmlEnrichText env.xmlDl resp_url fields.content_text) < 800)
        && (pdfFallbackText env resp_url fields).isSome) = true) := by
      simp only [Bool.and_eq_true, decide_eq_true_eq]
      exact hc
    rw [if_neg hb, if_neg hc]

/-- C6 counterexample: with two PDF links where the first downloads fine but
its extracted text strips to empty, the fallback text stored is the *second*
PDF's text, refuting "the text of the first successfully downloaded PDF ...
replaces the Case's content_text": the first download succeeded yet
contributed nothing. -/
theorem scrape_pdf_fallback_counterexample :
    (scrape_case_detail_run
      ⟨fun _ l => l, fun _ => none,
       (fun u => if u = "a.pdf" then
            some { file_path := "p1", content_type := some "application/pdf",
                   pages := some [some "  "] }
          else if u = "b.pdf" then
            some { file_path := "p2", content_type := some "application/pdf",
                   pages := some [some "FALLBACK"] }
          else none),
       fun _ => none, none⟩
      "https://x/case/2"
      ⟨none, none, none, none, none, none, none, some "short html text",
       ["a.pdf", "b.pdf"], []⟩
      true ⟨[], [], [], 0⟩).2.content_text = some "FALLBACK" ∧
    ((fun u => if u = "a.pdf" then
          some { file_path := "p1", content_type := some "application/pdf",
                 pages := some [some "  "] }
        else if u = "b.pdf" then
          some { file_path := "p2", content_type := some "application/pdf",
                 pages := some [some "FALLBACK"] }
        else none) "a.pdf" : Option PdfFetchOk).isSome = true ∧
    ((fun u => if u = "a.pdf" then
          some { file_path := "p1", content_type := some "application/pdf",
                 pages := some [some "  "] }
        else if u = "b.pdf" then
          some { file_path := "p2", content_type := some "application/pdf",
                 pages := some [some "FALLBACK"] }
        else none) "a.pdf" : Option PdfFetchOk).bind pdfPageText = none := by
  refine ⟨?_, by decide, by decide⟩
  decide

/-- C1 (amended): `content_text` is last-write-wins across re-crawls — the
stored text after a scrape is a function of the current fetch alone, not of
the previously stored row — while within a single scrape the XML enrichment
never shortens the freshly parsed text, and the only step that can store a
shorter text than the enrichment result is the PDF fallback, which fires only
when the post-enrichment text is empty or shorter than 800 characters. -/
theorem scrape_content_text_policy (env : ScrapeEnv) (resp_url : String)
    (fields : CaseParsedFields) (deep : Bool) (db : Db) :
    (∀ db' : Db,
      (scrape_case_detail_run env resp_url fields deep db).2.content_text =
        (scrape_case_detail_run env resp_url fields deep db').2.content_text) ∧
    optLen fields.content_text ≤
      optLen (xmlEnrichText env.xmlDl resp_url fields.content_text) ∧
    ((scrape_case_detail_run env resp_url fields deep db).2.content_text ≠
        xmlEnrichText env.xmlDl resp_url fields.content_text →
      optLen (xmlEnrichText env.xmlDl resp_url fields.content_text) < 800) := by
  refine ⟨?_, xmlEnrichText_le env.xmlDl resp_url fields.content_text, ?_⟩
  · intro db'
    rw [scrape_run_content_text, scrape_run_content_text]
  · intro hne
    rw [scrape_run_content_text] at hne
    by_cases hc : (deep
        && (!pyOptStrTruthy (xmlEnrichText env.xmlDl resp_url fields.content_text)
            || decide (((xmlEnrichText env.xmlDl resp_url fields.content_text).getD "").length < 800))
        && pyOptStrTruthy (if deep then pdfFallbackText env resp_url fields else none)) = true
    · simp only [Bool.and_eq_true, Bool.or_eq_true, decide_eq_true_eq] at hc
      rcases hc.1.2 with hfalsy | hlt
      · have : pyOptStrTruthy (xmlEnrichText env.xmlDl resp_url fields.content_text) = false := by
          simpa using hfalsy
        rw [optLen_eq_zero_of_falsy this]
        norm_num
      · exact hlt
    · rw [if_neg hc] at hne
      exact absurd rfl hne

set_option maxRecDepth 10000 in
/-- C1 counterexample: a Case holding 810 characters of text is re-crawled
and the fresh page parses to a 1-character body; the stored `content_text`
shrinks from 810 to 1 — with no PDF involved at all, so outside the claimed
sole exception — refuting monotonically non-decreasing length across
re-crawls. -/
theorem scrape_content_text_monotone_counterexample :
    optLen (scrape_case_detail_run
      ⟨fun _ l => l, fun _ => none, fun _ => none, fun _ => none, none⟩
      "https://x/case/1"
      ⟨none, none, none, none, none, none, none,
       some (String.mk (List.replicate 810 'a')), [], []⟩
      false ⟨[], [], [], 0⟩).2.content_text = 810 ∧
    optLen (scrape_case_detail_run
      ⟨fun _ l => l, fun _ => none, fun _ => none, fun _ => none, none⟩
      "https://x/case/1"
      ⟨none, none, none, none, none, none, none, some "b", [], []⟩
      false
      (scrape_case_detail_run
        ⟨fun _ l => l, fun _ => none, fun _ => none, fun _ => none, none⟩
        "https://x/case/1"
        ⟨none, none, none, none, none, none, none,
         some (String.mk (List.replicate 810 'a')), [], []⟩
        false ⟨[], [], [], 0⟩).1).2.content_text = 1 := by
  constructor
  · decide
  · decide

/-- Witness for C1 (amended): an input where the stored text differs from the
enrichment result (the PDF fallback fired), so the implication's hypothesis
holds and the post-enrichment text is indeed under 800 characters. -/
theorem scrape_content_text_policy_witness :
    optLen (xmlEnrichText (fun _ => none) "https://x/case/2" (some "short html text")) < 800 :=
  (scrape_content_text_policy
    ⟨fun _ l => l, fun _ => none,
     (fun u => if u = "b.pdf" then
          some { file_path := "p2", content_type := some "application/pdf",
                 pages := some [some "FALLBACK"] }
        else none),
     fun _ => none, none⟩
    "https://x/case/2"
    ⟨none, none, none, none, none, none, none, some "short html text", ["b.pdf"], []⟩
    true ⟨[], [], [], 0⟩).2.2 (by decide)

end Hakilens
